import Mathlib

/-!
Shallow embedding of the RAG backend in `backend/rag_service.py` and
`backend/app.py`.  Python strings are modelled as `List Char`; the external
services (OpenAI embeddings/chat, Qdrant search, `json.loads`) are modelled
as an environment of abstract response functions, and the orchestration
pipeline as pure functions that additionally return the trace of outbound
calls they made.
-/

namespace Rag

/-- Python strings, modelled as lists of unicode scalar values. -/
abbrev Str := List Char

/-- Convert a Lean string literal to the model's string type. -/
def lit (s : String) : Str := s.toList

/-- Python `str.strip()` whitespace test (modelled with Lean's notion of
whitespace character). -/
def isWs (c : Char) : Bool := c.isWhitespace

/-- Python `str.strip()`: drop whitespace from both ends. -/
def pyStrip (s : Str) : Str :=
  (((s.dropWhile isWs).reverse.dropWhile isWs)).reverse

/-- Python truthiness-based `x or d` for an optional integer (`None` and `0`
are falsy), as used in `top_k or self.default_top_k`. -/
def pyOrNat (x : Option Nat) (d : Nat) : Nat :=
  match x with
  | none => d
  | some n => if n = 0 then d else n

/-- Python truthiness-based `s or d` for an optional string (`None` and the
empty string are falsy). -/
def pyOrStr (x : Option Str) (d : Str) : Str :=
  match x with
  | none => d
  | some s => if s = [] then d else s

/-- Python `sep.join(xs)`. -/
def pyJoin (sep : Str) (xs : List Str) : Str :=
  List.intercalate sep xs

/-- JSON values as produced by Python's `json.loads`. -/
inductive Json where
  | null : Json
  | bool (b : Bool) : Json
  | num (n : Int) : Json
  | str (s : Str) : Json
  | arr (xs : List Json) : Json
  | obj (fields : List (Str × Json)) : Json

/-- Python `repr()` of a parsed-JSON value (string escaping inside quotes is
not modelled; no claim depends on it). -/
def pyRepr : Json → Str
  | .null => lit "None"
  | .bool b => if b then lit "True" else lit "False"
  | .num n => (toString n).toList
  | .str s => Char.ofNat 39 :: s ++ [Char.ofNat 39]
  | .arr xs =>
      '[' :: List.intercalate (lit ", ")
        (xs.attach.map fun x => pyRepr x.1) ++ [']']
  | .obj fs =>
      Char.ofNat 123 :: List.intercalate (lit ", ")
        (fs.attach.map fun f =>
          Char.ofNat 39 :: f.1.1 ++ Char.ofNat 39 :: ':' :: ' ' :: pyRepr f.1.2)
        ++ [Char.ofNat 125]
decreasing_by
  · have h := List.sizeOf_lt_of_mem x.2
    simp only [Json.arr.sizeOf_spec]
    omega
  · have h := List.sizeOf_lt_of_mem f.2
    have h2 : sizeOf f.1.2 < sizeOf f.1 := by
      obtain ⟨a, b⟩ := f.1
      simp
    simp only [Json.obj.sizeOf_spec]
    omega

/-- Python `str()` of a parsed-JSON value: identity on strings, `repr`-like on
everything else. -/
def pyStr (j : Json) : Str :=
  match j with
  | .str s => s
  | _ => pyRepr j

/-- Python `dict.get k`: JSON parsing keeps the last binding of a duplicated
key, so lookup finds the last matching field. -/
def dictGet (k : Str) (fields : List (Str × Json)) : Option Json :=
  (fields.reverse.find? (fun f => f.1 = k)).map (·.2)

/-- A chat history message (`{"role": ..., "content": ...}`). -/
structure Msg where
  role : Str
  content : Str
deriving DecidableEq

/-- A Qdrant point payload, with the fields `_normalize_sources` reads.
`none` models an absent key or JSON `null`. -/
structure Payload where
  text : Option Str := none
  title : Option Str := none
  source_url : Option Str := none
  doc_path : Option Str := none
  header_path : Option (List Str) := none
deriving DecidableEq

/-- A search hit: payload (possibly `None`) and score (possibly absent).
Scores are opaque to every claim, so they are modelled as integers. -/
structure Hit where
  payload : Option Payload := none
  score : Option Int := none
deriving DecidableEq

/-- A normalized source record, as built by `_normalize_sources`.  The
Python dict key `section` is a Lean keyword, hence the field name `sect`. -/
structure Source where
  title : Str
  url : Option Str
  doc_path : Option Str
  sect : Option Str
  score : Int
  snippet : Str
deriving DecidableEq

/-- Tunable configuration (`RAG_TOP_K`, `RAG_SNIPPET_CHARS`). -/
structure Cfg where
  defaultTopK : Nat
  maxSnippetChars : Nat

/-- Exceptions surfaced by the service. -/
inductive PyErr where
  | valueError (msg : Str)
  | upstream
deriving DecidableEq

/-- Embedding vectors are opaque to every claim; an abstract token stands in
for `list[float]`. -/
abbrev Vec := Nat

/-- Outbound calls made by the pipeline, recorded as a trace. -/
inductive Call where
  | embed (query : Str)
  | search (limit : Nat)
  | chat
  | chatStream
  | chatFollowups
deriving DecidableEq

/-- Events yielded by `stream_answer` / the SSE endpoint. -/
inductive Event where
  | delta (text : Str)
  | final (answer : Str) (sources : List Source) (followups : List Str)
      (answerId : Str)
  | error (msg : Str)
deriving DecidableEq

/-- Behaviour of the external services for one request: each field gives the
response (or raised exception, as `.error`) of one outbound call.
`chatStream` returns the chunk contents yielded by the streaming chat call
together with a flag telling whether the iterator then raises instead of
finishing; `parse` models `json.loads`. -/
structure Env where
  embed : Str → Except Unit Vec
  search : Vec → Nat → Except Unit (List Hit)
  chat : List Msg → Except Unit (Option Str)
  chatStream : List Msg → List (Option Str) × Bool
  fu : Str → Except Unit (Option Str)
  parse : Str → Except Unit Json
  answerId : Str

/-- The snippet computation inside `_normalize_sources`: trim the raw payload
text, cut to `maxSnippetChars` characters, append an ellipsis when the
trimmed text was longer than the limit. -/
def mkSnippet (maxChars : Nat) (rawText : Str) : Str :=
  let text := pyStrip rawText
  let snippet := text.take maxChars
  if text.length > maxChars then snippet ++ lit "..." else snippet

/-- Normalization of one hit (the loop body of `_normalize_sources`). -/
def normalizeHit (maxChars : Nat) (h : Hit) : Source :=
  let payload := h.payload.getD {}
  let text := pyStrip (payload.text.getD [])
  let sectionJoined := pyJoin (lit " / ") (payload.header_path.getD [])
  { title := pyOrStr payload.title (lit "Документация Рутокен")
    url := payload.source_url
    doc_path := payload.doc_path
    sect := if sectionJoined = [] then none else some sectionJoined
    score := match h.score with
      | none => 0
      | some s => if s = 0 then 0 else s
    snippet :=
      -- identical to `mkSnippet`, spelled out like the source lines 85-88
      if text.length > maxChars then text.take maxChars ++ lit "..."
      else text.take maxChars }

/-- The `_normalize_sources` method. -/
def normalizeSources (maxChars : Nat) (hits : List Hit) : List Source :=
  hits.map (normalizeHit maxChars)

/-- The block the `_build_context` loop body renders for the source at
(1-based) index `idx`. -/
def contextBlock (idx : Nat) (src : Source) : Str :=
  '[' :: 'S' :: (toString idx).toList ++ lit "] " ++ src.title
    ++ lit "\nsection: " ++ pyOrStr src.sect (lit "-")
    ++ lit "\nurl: " ++ pyOrStr src.url (lit "-")
    ++ lit "\ntext: " ++ pyOrStr (some src.snippet) (lit "-")

/-- The `blocks` list accumulated by the `_build_context` loop, starting at
index `idx`. -/
def contextBlocks (idx : Nat) : List Source → List Str
  | [] => []
  | src :: rest => contextBlock idx src :: contextBlocks (idx + 1) rest

/-- The `_build_context` method: blocks joined by a blank line. -/
def buildContext (sources : List Source) : Str :=
  pyJoin (lit "\n\n") (contextBlocks 1 sources)

/-- The fixed system instruction of `_build_messages`. -/
def systemPrompt : Str :=
  lit ("Ты встроенный AI-помощник портала документации Рутокен. "
    ++ "Отвечай только на основе переданного контекста. "
    ++ "Если данных недостаточно, явно скажи это и предложи, что уточнить. "
    ++ "Пиши кратко и по делу. "
    ++ "Для фактических утверждений добавляй ссылки на источники в формате [S1], [S2].")

/-- The final user message content of `_build_messages`. -/
def userContent (question context : Str) : Str :=
  lit "Вопрос пользователя:\n" ++ question
    ++ lit "\n\nКонтекст из базы знаний:\n" ++ context
    ++ lit "\n\nСформируй ответ на русском языке."

/-- The `_build_messages` method: system message, then `history[-8:]` (the
`if history:` guard is a no-op for the empty list), then the user message. -/
def buildMessages (question : Str) (history : List Msg) (context : Str) :
    List Msg :=
  let base := [⟨lit "system", systemPrompt⟩]
  let withHistory :=
    if history = [] then base
    else base ++ history.drop (history.length - 8)
  withHistory ++ [⟨lit "user", userContent question context⟩]

/-- The hardcoded fallback follow-up list of `_generate_followups`. -/
def fallbackFollowups : List Str :=
  [ lit "Какие шаги выполнить в Linux по порядку?"
  , lit "Какие есть типичные ошибки и как их исправить?"
  , lit "Покажи минимальный рабочий пример конфигурации."
  , lit "Какие версии и компоненты должны быть установлены?" ]

/-- The single-shot prompt built by `_generate_followups`. -/
def followupsPrompt (question answer : Str) (sources : List Source) : Str :=
  let srcTitles :=
    pyJoin (lit ", ")
      (((sources.take 4).filter (fun s => s.title ≠ [])).map (·.title))
  lit ("Сгенерируй 4 коротких уточняющих вопроса пользователя по теме ответа. "
      ++ "Ответ верни строго JSON-объектом вида \x7b\"followups\":[\"...\"]\x7d без комментариев. "
      ++ "Исходный вопрос: ")
    ++ question ++ lit "\nОтвет ассистента: " ++ answer
    ++ lit "\nИсточники: " ++ srcTitles

/-- The `_generate_followups` method: one JSON-mode chat call; on the call
raising, the content not parsing as JSON, or the parsed value not being a
dict with a `followups` list, return the fallback; otherwise return the
first 4 non-empty trimmed entries of the list (possibly none at all). -/
def generateFollowups (env : Env) (question answer : Str)
    (sources : List Source) : List Str :=
  let prompt := followupsPrompt question answer sources
  match env.fu prompt with
  | .error _ => fallbackFollowups
  | .ok content =>
    match env.parse (pyStrip (content.getD [])) with
    | .error _ => fallbackFollowups
    | .ok parsed =>
      match parsed with
      | .obj fields =>
        match dictGet (lit "followups") fields with
        | some (.arr items) =>
            ((items.map (fun x => pyStrip (pyStr x))).filter (· ≠ [])).take 4
        | _ => fallbackFollowups
      | _ => fallbackFollowups

/-- The `_retrieve` method, instrumented with the trace of outbound calls:
embed the stripped question, search with `top_k or default_top_k`,
normalize, render the context. -/
def retrieve (cfg : Cfg) (env : Env) (question : Str) (topK : Option Nat) :
    Except Unit (List Source × Str) × List Call :=
  let q := pyStrip question
  match env.embed q with
  | .error e => (.error e, [.embed q])
  | .ok vec =>
    let lim := pyOrNat topK cfg.defaultTopK
    match env.search vec lim with
    | .error e => (.error e, [.embed q, .search lim])
    | .ok hits =>
      let sources := normalizeSources cfg.maxSnippetChars hits
      (.ok (sources, buildContext sources), [.embed q, .search lim])

/-- Result of a successful `ask` call. -/
structure AskResult where
  answer : Str
  sources : List Source
  followups : List Str
  answerId : Str
deriving DecidableEq

/-- The `ask` method, instrumented with the trace of outbound calls.  An
empty-after-strip question raises `ValueError` before anything else; any
upstream exception propagates. -/
def ask (cfg : Cfg) (env : Env) (question : Str) (history : Option (List Msg))
    (topK : Option Nat) : Except PyErr AskResult × List Call :=
  if pyStrip question = [] then
    (.error (.valueError (lit "question is empty")), [])
  else
    match retrieve cfg env (pyStrip question) topK with
    | (.error _, tr) => (.error .upstream, tr)
    | (.ok (sources, context), tr) =>
      let messages := buildMessages (pyStrip question) (history.getD []) context
      match env.chat messages with
      | .error _ => (.error .upstream, tr ++ [.chat])
      | .ok content =>
        let answer := pyStrip (content.getD [])
        let followups := generateFollowups env (pyStrip question) answer sources
        (.ok ⟨answer, sources, followups, env.answerId⟩,
          tr ++ [.chat, .chatFollowups])

/-- The non-empty delta contents among the streamed chunks (chunks whose
content is `None` or empty are skipped by `if not delta: continue`). -/
def chunkDeltas (chunks : List (Option Str)) : List Str :=
  chunks.filterMap (fun c =>
    match c with
    | none => none
    | some s => if s = [] then none else some s)

/-- The `stream_answer` generator, instrumented: the events it yields, the
outcome (`.ok` for normal termination, `.error` when an exception escapes
after the listed events), and the trace of outbound calls. -/
def streamAnswer (cfg : Cfg) (env : Env) (question : Str)
    (history : Option (List Msg)) (topK : Option Nat) :
    List Event × Except PyErr Unit × List Call :=
  if pyStrip question = [] then
    ([], .error (.valueError (lit "question is empty")), [])
  else
    match retrieve cfg env (pyStrip question) topK with
    | (.error _, tr) => ([], .error .upstream, tr)
    | (.ok (sources, context), tr) =>
      let messages := buildMessages (pyStrip question) (history.getD []) context
      let (chunks, raised) := env.chatStream messages
      let deltas := chunkDeltas chunks
      let deltaEvents := deltas.map Event.delta
      if raised then
        (deltaEvents, .error .upstream, tr ++ [.chatStream])
      else
        let answer := pyStrip deltas.flatten
        let followups := generateFollowups env (pyStrip question) answer sources
        (deltaEvents
            ++ [.final answer sources followups env.answerId],
          .ok (), tr ++ [.chatStream, .chatFollowups])

/-- The `_event_stream` generator of the `/api/assistant/stream` endpoint in
`app.py`: forwards every event of `stream_answer` and converts an escaped
exception into one terminal error event. -/
def appStream (cfg : Cfg) (env : Env) (question : Str)
    (history : Option (List Msg)) (topK : Option Nat) : List Event :=
  match streamAnswer cfg env question history topK with
  | (events, .ok _, _) => events
  | (events, .error _, _) => events ++ [.error (lit "assistant_stream_failed")]

/-- A stored feedback record. -/
structure FeedbackRecord where
  answer_id : Str
  vote : Str
  question : Option Str
  answer : Option Str
deriving DecidableEq

/-- The `save_feedback` method, modelled by explicit state passing of the
in-memory `feedback_store` list. -/
def saveFeedback (store : List FeedbackRecord) (answerId vote : Str)
    (question answer : Option Str) : List FeedbackRecord :=
  store ++ [⟨answerId, vote, question, answer⟩]

/-! Spec-side definitions, written from the specification's words, used to
state the claims. -/

/-- The `followups` list of a parsed JSON value, when the value is an object
with a `followups` array (the shape the spec requires). -/
def followupsItems : Json → Option (List Json)
  | .obj fields =>
    match dictGet (lit "followups") fields with
    | some (.arr items) => some items
    | _ => none
  | _ => none

/-- Whether an event is a delta. -/
def isDelta : Event → Bool
  | .delta _ => true
  | _ => false

/-- Whether an event is a final event. -/
def isFinal : Event → Bool
  | .final _ _ _ _ => true
  | _ => false

/-- Whether an event is an error event. -/
def isErrorEv : Event → Bool
  | .error _ => true
  | _ => false

/-- The delta texts of a stream, in order. -/
def deltaTexts (evs : List Event) : List Str :=
  evs.filterMap fun e =>
    match e with
    | .delta t => some t
    | _ => none

/-- The answers carried by final events of a stream, in order. -/
def finalAnswers (evs : List Event) : List Str :=
  evs.filterMap fun e =>
    match e with
    | .final a _ _ _ => some a
    | _ => none

/-- The stream shape asserted by the spec: one or more deltas followed by
exactly one final event, or a stream ending in exactly one error event. -/
def claimedStreamShape (evs : List Event) : Prop :=
  (∃ ds fin, ds ≠ [] ∧ (∀ d ∈ ds, isDelta d = true) ∧ isFinal fin = true ∧
    evs = ds ++ [fin]) ∨
  (∃ pre err, isErrorEv err = true ∧ evs = pre ++ [err])

/-! Concrete configurations, environments and inputs used to instantiate the
theorems below. -/

/-- The default configuration (`RAG_TOP_K=6`, `RAG_SNIPPET_CHARS=700`). -/
def cfgA : Cfg := ⟨6, 700⟩

/-- An environment in which every outbound call raises. -/
def envBase : Env :=
  ⟨fun _ => .error (), fun _ _ => .error (), fun _ => .error (),
    fun _ => ([], true), fun _ => .error (), fun _ => .error (), []⟩

/-- An environment whose follow-up chat call succeeds and parses to an
object with an empty `followups` array. -/
def envEmptyFollowups : Env :=
  ⟨fun _ => .error (), fun _ _ => .error (), fun _ => .error (),
    fun _ => ([], true), fun _ => .ok (some (lit "x")),
    fun _ => .ok (.obj [(lit "followups", .arr [])]), []⟩

/-- An environment whose embedding call succeeds. -/
def envEmbedOk : Env :=
  ⟨fun _ => .ok 0, fun _ _ => .error (), fun _ => .error (),
    fun _ => ([], true), fun _ => .error (), fun _ => .error (), []⟩

/-- An environment whose retrieval succeeds and whose streaming chat call
yields two non-empty chunks and one skipped `None` chunk, then finishes. -/
def envStreamOk : Env :=
  ⟨fun _ => .ok 0, fun _ _ => .ok [], fun _ => .error (),
    fun _ => ([some ['h', 'i'], none, some ['!', ' ']], false),
    fun _ => .error (), fun _ => .error (), []⟩

/-- An environment whose retrieval succeeds and whose streaming chat call
finishes without yielding any chunk. -/
def envStreamEmpty : Env :=
  ⟨fun _ => .ok 0, fun _ _ => .ok [], fun _ => .error (),
    fun _ => ([], false), fun _ => .error (), fun _ => .error (), []⟩

/-- A hit whose payload text has four non-whitespace characters. -/
def hitLong : Hit := ⟨some ⟨some ['a', 'b', 'c', 'd'], none, none, none, none⟩, none⟩

/-- A one-element chat history. -/
def msgA : Msg := ⟨lit "user", ['h', 'i']⟩

/-! Helper lemmas about stripping and snippets. -/

/-- The head of `dropWhile p` never satisfies `p`. -/
theorem head?_dropWhile_not {p : Char → Bool} {l : Str} {a : Char}
    (h : (l.dropWhile p).head? = some a) : p a = false := by
  induction l with
  | nil => simp [List.dropWhile] at h
  | cons x xs ih =>
    rw [List.dropWhile_cons] at h
    by_cases hx : p x
    · simp [hx] at h
      exact ih h
    · simp [hx] at h
      subst h
      simpa using hx

/-- `dropWhile p` is the identity when the head does not satisfy `p`. -/
theorem dropWhile_eq_self_of_head {p : Char → Bool} {l : Str}
    (h : ∀ a ∈ l.head?, p a = false) : l.dropWhile p = l := by
  cases l with
  | nil => rfl
  | cons x xs =>
    simp at h
    simp [List.dropWhile_cons, h]

/-- A nonempty left factor of a list has the same head as the list. -/
theorem head?_eq_of_eq_append {l l₁ l₂ : Str} (h : l = l₁ ++ l₂)
    (hne : l₁ ≠ []) : l₁.head? = l.head? := by
  subst h
  cases l₁ with
  | nil => exact absurd rfl hne
  | cons x xs => simp

/-- The first character of a stripped string is never whitespace. -/
theorem pyStrip_head (s : Str) : ∀ a ∈ (pyStrip s).head?, isWs a = false := by
  intro a ha
  obtain ⟨t, ht⟩ :=
    (List.dropWhile_suffix (l := (s.dropWhile isWs).reverse) isWs)
  have hyeq : s.dropWhile isWs = pyStrip s ++ t.reverse := by
    have h2 := congrArg List.reverse ht
    rw [List.reverse_append, List.reverse_reverse] at h2
    unfold pyStrip
    exact h2.symm
  have hne : pyStrip s ≠ [] := by
    intro h0
    rw [h0] at ha
    simp at ha
  have hh := head?_eq_of_eq_append hyeq hne
  rw [hh] at ha
  exact head?_dropWhile_not (Option.mem_def.mp ha)

/-- The last character of a stripped string is never whitespace. -/
theorem pyStrip_getLast (s : Str) :
    ∀ a ∈ (pyStrip s).getLast?, isWs a = false := by
  intro a ha
  unfold pyStrip at ha
  rw [List.getLast?_reverse] at ha
  exact head?_dropWhile_not (Option.mem_def.mp ha)

/-- Stripping is idempotent. -/
theorem pyStrip_idempotent (s : Str) : pyStrip (pyStrip s) = pyStrip s := by
  have h1 : (pyStrip s).dropWhile isWs = pyStrip s :=
    dropWhile_eq_self_of_head (pyStrip_head s)
  have h2 : (pyStrip s).reverse.dropWhile isWs = (pyStrip s).reverse := by
    apply dropWhile_eq_self_of_head
    intro a ha
    rw [List.head?_reverse] at ha
    exact pyStrip_getLast s a ha
  show (((pyStrip s).dropWhile isWs).reverse.dropWhile isWs).reverse = pyStrip s
  rw [h1, h2, List.reverse_reverse]

/-- The snippet of a normalized hit is the `mkSnippet` of its payload text. -/
theorem normalizeHit_snippet (maxChars : Nat) (h : Hit) :
    (normalizeHit maxChars h).snippet =
      mkSnippet maxChars ((h.payload.getD {}).text.getD []) := rfl

/-- The snippet computation already strips its input: pre-stripping the
payload text changes nothing. -/
theorem mkSnippet_pyStrip (maxChars : Nat) (raw : Str) :
    mkSnippet maxChars (pyStrip raw) = mkSnippet maxChars raw := by
  unfold mkSnippet
  rw [pyStrip_idempotent]

/-- Taking a positive number of elements preserves the head. -/
theorem head?_take_pos {l : Str} {m : Nat} (hm : 0 < m) :
    (l.take m).head? = l.head? := by
  cases l with
  | nil => simp
  | cons x xs =>
    cases m with
    | zero => exact absurd hm (by simp)
    | succ k => simp

/-- A snippet never starts with whitespace. -/
theorem mkSnippet_head (maxChars : Nat) (raw : Str) :
    ∀ a ∈ (mkSnippet maxChars raw).head?, isWs a = false := by
  intro a ha
  unfold mkSnippet at ha
  by_cases hlen : (pyStrip raw).length > maxChars
  · simp only [hlen, if_true] at ha
    rcases Nat.eq_zero_or_pos maxChars with h0 | hpos
    · subst h0
      simp [lit] at ha
      subst ha
      decide
    · have hne : (pyStrip raw).take maxChars ≠ [] := by
        intro hnil
        have hlt := congrArg List.length hnil
        rw [List.length_take, List.length_nil] at hlt
        omega
      rw [List.head?_append_of_ne_nil _ hne, head?_take_pos hpos] at ha
      exact pyStrip_head raw a ha
  · simp only [hlen, if_false] at ha
    rw [List.take_of_length_le (by omega)] at ha
    exact pyStrip_head raw a ha

/-- A snippet never ends with whitespace (a truncated snippet ends in the
ellipsis dot). -/
theorem mkSnippet_getLast (maxChars : Nat) (raw : Str) :
    ∀ a ∈ (mkSnippet maxChars raw).getLast?, isWs a = false := by
  intro a ha
  unfold mkSnippet at ha
  by_cases hlen : (pyStrip raw).length > maxChars
  · simp only [hlen, if_true] at ha
    rw [List.getLast?_append_of_ne_nil _ (by simp [lit])] at ha
    simp [lit] at ha
    subst ha
    decide
  · simp only [hlen, if_false] at ha
    rw [List.take_of_length_le (by omega)] at ha
    exact pyStrip_getLast raw a ha

/-- The empty payload text yields the empty snippet. -/
theorem mkSnippet_nil (maxChars : Nat) : mkSnippet maxChars [] = [] := by
  simp [mkSnippet, pyStrip]

/-- Truncating branch of the snippet computation. -/
theorem mkSnippet_eq_of_gt {maxChars : Nat} {raw : Str}
    (h : (pyStrip raw).length > maxChars) :
    mkSnippet maxChars raw = (pyStrip raw).take maxChars ++ lit "..." := by
  unfold mkSnippet
  simp [h]

/-- Verbatim branch of the snippet computation. -/
theorem mkSnippet_eq_of_le {maxChars : Nat} {raw : Str}
    (h : (pyStrip raw).length ≤ maxChars) :
    mkSnippet maxChars raw = pyStrip raw := by
  unfold mkSnippet
  rw [if_neg (by omega), List.take_of_length_le h]

/-- The snippet length bound. -/
theorem mkSnippet_length (maxChars : Nat) (raw : Str) :
    (mkSnippet maxChars raw).length ≤ maxChars + 3 := by
  by_cases h : (pyStrip raw).length > maxChars
  · rw [mkSnippet_eq_of_gt h, List.length_append, List.length_take]
    have : (lit "...").length = 3 := rfl
    omega
  · rw [mkSnippet_eq_of_le (by omega)]
    omega

/-- The `_build_context` loop renders the 1-based enumeration of the
sources. -/
theorem contextBlocks_eq_enumFrom (idx : Nat) (srcs : List Source) :
    contextBlocks idx srcs =
      (List.enumFrom idx srcs).map fun p => contextBlock p.1 p.2 := by
  induction srcs generalizing idx with
  | nil => rfl
  | cons s rest ih => simp [contextBlocks, List.enumFrom, ih]

/-- Indexing into the rendered blocks. -/
theorem contextBlocks_getElem? (idx : Nat) (srcs : List Source) (i : Nat) :
    (contextBlocks idx srcs)[i]? = (srcs[i]?).map fun s => contextBlock (idx + i) s := by
  induction srcs generalizing idx i with
  | nil => simp [contextBlocks]
  | cons s rest ih =>
    cases i with
    | zero => simp [contextBlocks]
    | succ j =>
      have harith : idx + 1 + j = idx + (j + 1) := by omega
      simp only [contextBlocks, List.getElem?_cons_succ, ih (idx + 1) j, harith]

/-- Delta texts of a pure delta stream. -/
theorem deltaTexts_map_delta (ds : List Str) :
    deltaTexts (ds.map Event.delta) = ds := by
  induction ds with
  | nil => rfl
  | cons x xs ih => simpa [deltaTexts, List.filterMap_cons] using ih

/-- A pure delta stream has no final answer. -/
theorem finalAnswers_map_delta (ds : List Str) :
    finalAnswers (ds.map Event.delta) = [] := by
  induction ds with
  | nil => rfl
  | cons x xs ih => simp [finalAnswers, List.filterMap_cons] at ih ⊢

/-- The trace of a retrieval whose embedding call succeeded. -/
theorem retrieve_trace (cfg : Cfg) (env : Env) (q : Str) (topK : Option Nat)
    (v : Vec) (hv : env.embed (pyStrip q) = .ok v) :
    (retrieve cfg env q topK).2 =
      [.embed (pyStrip q), .search (pyOrNat topK cfg.defaultTopK)] := by
  simp only [retrieve, hv]
  rcases h2 : env.search v (pyOrNat topK cfg.defaultTopK) with e | hits <;>
    simp [h2]

/-- Case analysis of the instrumented `stream_answer` run: either it ends in
an exception after a (possibly empty) prefix of delta events, or it ends
normally with the delta events followed by one final event whose answer is
the trimmed concatenation of the delta texts. -/
theorem streamAnswer_cases (cfg : Cfg) (env : Env) (q : Str)
    (hist : Option (List Msg)) (topK : Option Nat) :
    ∃ ds : List Str,
      ((streamAnswer cfg env q hist topK).1 = ds.map Event.delta
        ∧ ∃ e, (streamAnswer cfg env q hist topK).2.1 = .error e)
      ∨ (∃ s f i, (streamAnswer cfg env q hist topK).1
            = ds.map Event.delta ++ [.final (pyStrip ds.flatten) s f i]
          ∧ (streamAnswer cfg env q hist topK).2.1 = .ok ()) := by
  by_cases hq : pyStrip q = []
  · exact ⟨[], .inl ⟨by simp [streamAnswer, hq],
      ⟨.valueError (lit "question is empty"), by simp [streamAnswer, hq]⟩⟩⟩
  · rcases hr : retrieve cfg env (pyStrip q) topK with ⟨res, tr⟩
    cases res with
    | error e =>
      exact ⟨[], .inl ⟨by simp [streamAnswer, hq, hr],
        ⟨.upstream, by simp [streamAnswer, hq, hr]⟩⟩⟩
    | ok sc =>
      obtain ⟨sources, context⟩ := sc
      rcases hcs : env.chatStream
          (buildMessages (pyStrip q) (hist.getD []) context) with ⟨chunks, raised⟩
      cases raised with
      | true =>
        exact ⟨chunkDeltas chunks, .inl ⟨by simp [streamAnswer, hq, hr, hcs],
          ⟨.upstream, by simp [streamAnswer, hq, hr, hcs]⟩⟩⟩
      | false =>
        exact ⟨chunkDeltas chunks, .inr ⟨sources,
          generateFollowups env (pyStrip q)
            (pyStrip (chunkDeltas chunks).flatten) sources,
          env.answerId, by simp [streamAnswer, hq, hr, hcs],
          by simp [streamAnswer, hq, hr, hcs]⟩⟩

/-- The endpoint stream is the service stream, with an escaped exception
converted into one trailing error event. -/
theorem appStream_eq (cfg : Cfg) (env : Env) (q : Str)
    (hist : Option (List Msg)) (topK : Option Nat) :
    appStream cfg env q hist topK =
      (match (streamAnswer cfg env q hist topK).2.1 with
      | .ok _ => (streamAnswer cfg env q hist topK).1
      | .error _ => (streamAnswer cfg env q hist topK).1
          ++ [.error (lit "assistant_stream_failed")]) := by
  unfold appStream
  rcases h : streamAnswer cfg env q hist topK with ⟨evs, out, tr⟩
  cases out <;> simp

/-- Delta texts split over append. -/
theorem deltaTexts_append (l₁ l₂ : List Event) :
    deltaTexts (l₁ ++ l₂) = deltaTexts l₁ ++ deltaTexts l₂ :=
  List.filterMap_append _ _ _

/-- Final answers split over append. -/
theorem finalAnswers_append (l₁ l₂ : List Event) :
    finalAnswers (l₁ ++ l₂) = finalAnswers l₁ ++ finalAnswers l₂ :=
  List.filterMap_append _ _ _

/-- A final event contributes no delta text. -/
theorem deltaTexts_final (a : Str) (s : List Source) (f : List Str)
    (i : Str) : deltaTexts [.final a s f i] = [] := rfl

/-- A final event contributes its answer. -/
theorem finalAnswers_final (a : Str) (s : List Source) (f : List Str)
    (i : Str) : finalAnswers [.final a s f i] = [a] := rfl

/-- The `_generate_followups` control flow, expressed through the shape
test `followupsItems`. -/
theorem generateFollowups_eq (env : Env) (q a : Str) (srcs : List Source) :
    generateFollowups env q a srcs =
      match env.fu (followupsPrompt q a srcs) with
      | .error _ => fallbackFollowups
      | .ok c =>
        match env.parse (pyStrip (c.getD [])) with
        | .error _ => fallbackFollowups
        | .ok j =>
          match followupsItems j with
          | none => fallbackFollowups
          | some items =>
              ((items.map fun x => pyStrip (pyStr x)).filter (· ≠ [])).take 4
    := by
  rcases hfu : env.fu (followupsPrompt q a srcs) with e | c
  · simp only [generateFollowups, hfu]
  · rcases hp : env.parse (pyStrip (c.getD [])) with e | j
    · simp only [generateFollowups, hfu, hp]
    · cases j with
      | obj fields =>
        rcases hg : dictGet (lit "followups") fields with _ | jv
        · simp only [generateFollowups, followupsItems, hfu, hp, hg]
        · cases jv <;>
            simp only [generateFollowups, followupsItems, hfu, hp, hg]
      | null => simp only [generateFollowups, followupsItems, hfu, hp]
      | bool b => simp only [generateFollowups, followupsItems, hfu, hp]
      | num n => simp only [generateFollowups, followupsItems, hfu, hp]
      | str s => simp only [generateFollowups, followupsItems, hfu, hp]
      | arr xs => simp only [generateFollowups, followupsItems, hfu, hp]

/-! The claims. -/

/-- C2: for every search hit, if the (trimmed) payload text is longer than
the configured `max_snippet_chars` limit, the normalized source's snippet is
exactly the first `max_snippet_chars` characters of that text followed by
`"..."`; if the text is at or under the limit, the snippet equals the text
verbatim with no suffix; hence every snippet has length at most
`max_snippet_chars + 3`.  (Per C10, the payload text is whitespace-trimmed
before the length check, so "text" here is the trimmed payload text.) -/
theorem c2_snippet_truncation (m : Nat) (h : Hit) :
    ((pyStrip ((h.payload.getD {}).text.getD [])).length > m →
      (normalizeHit m h).snippet =
        (pyStrip ((h.payload.getD {}).text.getD [])).take m ++ lit "...")
    ∧ ((pyStrip ((h.payload.getD {}).text.getD [])).length ≤ m →
      (normalizeHit m h).snippet = pyStrip ((h.payload.getD {}).text.getD []))
    ∧ (normalizeHit m h).snippet.length ≤ m + 3 := by
  refine ⟨?_, ?_, ?_⟩
  · intro hgt
    rw [normalizeHit_snippet]
    exact mkSnippet_eq_of_gt hgt
  · intro hle
    rw [normalizeHit_snippet]
    exact mkSnippet_eq_of_le hle
  · rw [normalizeHit_snippet]
    exact mkSnippet_length m _

/-- Witness for C2: a four-character payload text at limits 2 and 9. -/
theorem c2_snippet_truncation_witness :
    (normalizeHit 2 hitLong).snippet
        = (pyStrip ((hitLong.payload.getD {}).text.getD [])).take 2 ++ lit "..."
    ∧ (normalizeHit 9 hitLong).snippet
        = pyStrip ((hitLong.payload.getD {}).text.getD []) :=
  ⟨(c2_snippet_truncation 2 hitLong).1 (by decide),
   (c2_snippet_truncation 9 hitLong).2.1 (by decide)⟩

/-- C10: the payload text is whitespace-trimmed before the snippet length
check and truncation (pre-trimming the text changes nothing), so the snippet
never has leading or trailing whitespace, and a missing or null payload text
yields the empty snippet rather than an error. -/
theorem c10_snippet_trimmed (m : Nat) (h : Hit) :
    (normalizeHit m h).snippet = mkSnippet m ((h.payload.getD {}).text.getD [])
    ∧ mkSnippet m (pyStrip ((h.payload.getD {}).text.getD []))
        = mkSnippet m ((h.payload.getD {}).text.getD [])
    ∧ (∀ a ∈ (normalizeHit m h).snippet.head?, isWs a = false)
    ∧ (∀ a ∈ (normalizeHit m h).snippet.getLast?, isWs a = false)
    ∧ ((h.payload.getD {}).text = none → (normalizeHit m h).snippet = []) := by
  refine ⟨normalizeHit_snippet m h, mkSnippet_pyStrip m _, ?_, ?_, ?_⟩
  · simp only [normalizeHit_snippet]
    exact mkSnippet_head m _
  · simp only [normalizeHit_snippet]
    exact mkSnippet_getLast m _
  · intro ht
    rw [normalizeHit_snippet, ht]
    exact mkSnippet_nil m

/-- Witness for C10: a truncated snippet starting with a non-whitespace
character, and a hit with no payload at all yielding the empty snippet. -/
theorem c10_snippet_trimmed_witness :
    isWs 'a' = false ∧ (normalizeHit 5 ({} : Hit)).snippet = [] :=
  ⟨(c10_snippet_trimmed 2 hitLong).2.2.1 'a' (by decide),
   (c10_snippet_trimmed 5 {}).2.2.2.2 rfl⟩

/-- C9: `save_feedback` appends exactly one record carrying the given
fields to the end of the store, leaving all previously stored records
unchanged; being a total function, it succeeds for every `answer_id` with no
deduplication and no referential validation. -/
theorem c9_save_feedback_appends (store : List FeedbackRecord)
    (aid vote : Str) (q a : Option Str) :
    saveFeedback store aid vote q a = store ++ [⟨aid, vote, q, a⟩]
    ∧ (saveFeedback store aid vote q a).length = store.length + 1
    ∧ (saveFeedback store aid vote q a).take store.length = store :=
  ⟨rfl, by simp [saveFeedback], by
    unfold saveFeedback
    exact List.take_left store _⟩

/-- C6: the message list contains exactly the most recent 8 history messages
(all of them if there are 8 or fewer), in their original oldest-first order,
between the fixed system message and the final user message. -/
theorem c6_history_window (q : Str) (h : List Msg) (c : Str) :
    buildMessages q h c =
      ⟨lit "system", systemPrompt⟩ ::
        (h.drop (h.length - 8) ++ [⟨lit "user", userContent q c⟩])
    ∧ (h.length ≤ 8 → h.drop (h.length - 8) = h)
    ∧ (h.drop (h.length - 8)).length = min 8 h.length
    ∧ ∃ t, t ++ h.drop (h.length - 8) = h := by
  refine ⟨?_, ?_, ?_, ⟨h.take (h.length - 8), List.take_append_drop _ _⟩⟩
  · unfold buildMessages
    by_cases hh : h = []
    · subst hh
      simp
    · simp [hh]
  · intro hle
    have h0 : h.length - 8 = 0 := by omega
    rw [h0, List.drop_zero]
  · rw [List.length_drop]
    omega

/-- Witness for C6: a one-message history is forwarded whole. -/
theorem c6_history_window_witness :
    ([msgA] : List Msg).length ≤ 8
    ∧ ([msgA] : List Msg).drop (([msgA] : List Msg).length - 8) = [msgA] :=
  ⟨by decide, (c6_history_window [] [msgA] []).2.1 (by decide)⟩

/-- C3: for every question that is empty after stripping, and every history
and `top_k`, both `ask` and `stream_answer` fail with `ValueError` before
any outbound call is made (the call trace is empty). -/
theorem c3_empty_question (cfg : Cfg) (env : Env) (q : Str)
    (hist : Option (List Msg)) (topK : Option Nat)
    (hq : pyStrip q = []) :
    ask cfg env q hist topK
        = (.error (.valueError (lit "question is empty")), [])
    ∧ streamAnswer cfg env q hist topK
        = ([], .error (.valueError (lit "question is empty")), []) := by
  constructor
  · simp [ask, hq]
  · simp [streamAnswer, hq]

/-- Witness for C3: a whitespace-only question. -/
theorem c3_empty_question_witness :
    pyStrip [' ', '\t'] = ([] : Str)
    ∧ ask cfgA envBase [' ', '\t'] none none
        = (.error (.valueError (lit "question is empty")), []) :=
  ⟨by decide,
   (c3_empty_question cfgA envBase [' ', '\t'] none none (by decide)).1⟩

/-- C7: the rendered context block is the blank-line-separated sequence of
one labeled block per source, numbered from `[S1]` in list order, the i-th
block being the rendering of the i-th source at label index `i+1`; being a
pure function of the source list, the rendering is deterministic. -/
theorem c7_context_blocks (srcs : List Source) :
    buildContext srcs =
      pyJoin (lit "\n\n")
        ((List.enumFrom 1 srcs).map fun p => contextBlock p.1 p.2)
    ∧ (contextBlocks 1 srcs).length = srcs.length
    ∧ ∀ i, (contextBlocks 1 srcs)[i]?
        = (srcs[i]?).map fun s => contextBlock (1 + i) s := by
  refine ⟨?_, ?_, fun i => contextBlocks_getElem? 1 srcs i⟩
  · unfold buildContext
    rw [contextBlocks_eq_enumFrom]
  · rw [contextBlocks_eq_enumFrom]
    simp

/-- C8: when the embedding call succeeds, retrieval invokes the search
adapter with the configured default top-k if the caller passed no `top_k`,
and with the caller's value when it is at least 1 (the API range is 1-12). -/
theorem c8_search_limit (cfg : Cfg) (env : Env) (q : Str)
    (hv : ∃ v, env.embed (pyStrip q) = .ok v) :
    (retrieve cfg env q none).2
        = [.embed (pyStrip q), .search cfg.defaultTopK]
    ∧ ∀ k, 1 ≤ k →
        (retrieve cfg env q (some k)).2 = [.embed (pyStrip q), .search k] := by
  obtain ⟨v, hv⟩ := hv
  constructor
  · rw [retrieve_trace cfg env q none v hv]
    rfl
  · intro k hk
    rw [retrieve_trace cfg env q (some k) v hv]
    have hcalc : pyOrNat (some k) cfg.defaultTopK = k := by
      show (if k = 0 then cfg.defaultTopK else k) = k
      rw [if_neg (by omega)]
    rw [hcalc]

/-- Witness for C8: an environment whose embedding succeeds; omitted `top_k`
yields a search with the configured default (6). -/
theorem c8_search_limit_witness :
    (∃ v, envEmbedOk.embed (pyStrip ['h', 'i']) = .ok v)
    ∧ (retrieve cfgA envEmbedOk ['h', 'i'] none).2
        = [.embed (pyStrip ['h', 'i']), .search cfgA.defaultTopK] :=
  ⟨⟨0, rfl⟩, (c8_search_limit cfgA envEmbedOk ['h', 'i'] ⟨0, rfl⟩).1⟩

/-- C1 counterexample: when the chat call succeeds and parses to an object
whose `followups` array is empty, the code returns the empty list, not the
4-item fallback the claim requires for an empty result. -/
theorem c1_empty_followups_counterexample :
    generateFollowups envEmptyFollowups (lit "q") (lit "a") [] = []
    ∧ generateFollowups envEmptyFollowups (lit "q") (lit "a") []
        ≠ fallbackFollowups := by
  have h : generateFollowups envEmptyFollowups (lit "q") (lit "a") [] = [] :=
    by rfl
  refine ⟨h, ?_⟩
  rw [h]
  intro hcontra
  have hlen := congrArg List.length hcontra
  simp [fallbackFollowups] at hlen

/-- C1 (amended): the follow-up generator is total, always returns at most 4
strings, and returns exactly the fixed 4-item fallback when the chat call
raises, the response does not parse as JSON, or the parsed value is not an
object with a `followups` array; when the shape is right it returns the
first up-to-4 non-empty trimmed entries — the empty list, not the fallback,
when the array has no non-empty entry. -/
theorem c1_followups_fallback (env : Env) (q a : Str) (srcs : List Source) :
    (generateFollowups env q a srcs).length ≤ 4
    ∧ (∀ e, env.fu (followupsPrompt q a srcs) = .error e →
        generateFollowups env q a srcs = fallbackFollowups)
    ∧ (∀ c e, env.fu (followupsPrompt q a srcs) = .ok c →
        env.parse (pyStrip (c.getD [])) = .error e →
        generateFollowups env q a srcs = fallbackFollowups)
    ∧ (∀ c j, env.fu (followupsPrompt q a srcs) = .ok c →
        env.parse (pyStrip (c.getD [])) = .ok j →
        followupsItems j = none →
        generateFollowups env q a srcs = fallbackFollowups)
    ∧ (∀ c j items, env.fu (followupsPrompt q a srcs) = .ok c →
        env.parse (pyStrip (c.getD [])) = .ok j →
        followupsItems j = some items →
        generateFollowups env q a srcs =
          ((items.map fun x => pyStrip (pyStr x)).filter (· ≠ [])).take 4) := by
  have heq := generateFollowups_eq env q a srcs
  refine ⟨?_, ?_, ?_, ?_, ?_⟩
  · rw [heq]
    rcases hfu : env.fu (followupsPrompt q a srcs) with e | c
    · simp [hfu, fallbackFollowups]
    · rcases hp : env.parse (pyStrip (c.getD [])) with e | j
      · simp [hp, fallbackFollowups]
      · rcases hfi : followupsItems j with _ | items
        · simp [hp, hfi, fallbackFollowups]
        · simp only [hp, hfi]
          rw [List.length_take]
          omega
  · intro e he
    rw [heq]
    simp only [he]
  · intro c e hc hp
    rw [heq]
    simp only [hc, hp]
  · intro c j hc hp hfi
    rw [heq]
    simp only [hc, hp, hfi]
  · intro c j items hc hp hfi
    rw [heq]
    simp only [hc, hp, hfi]

/-- Witness for C1: an environment whose follow-up chat call raises; the
generator returns the fallback list. -/
theorem c1_followups_fallback_witness :
    envBase.fu (followupsPrompt (lit "q") (lit "a") []) = .error ()
    ∧ generateFollowups envBase (lit "q") (lit "a") [] = fallbackFollowups :=
  ⟨rfl, (c1_followups_fallback envBase (lit "q") (lit "a") []).2.1 () rfl⟩

/-- C4: on every completed (non-error) run of `stream_answer`, the trimmed
concatenation of the delta texts of all emitted delta events equals the
answer carried by the final event of the same stream. -/
theorem c4_stream_concat (cfg : Cfg) (env : Env) (q : Str)
    (hist : Option (List Msg)) (topK : Option Nat)
    (hok : (streamAnswer cfg env q hist topK).2.1 = .ok ()) :
    finalAnswers (streamAnswer cfg env q hist topK).1 =
      [pyStrip (deltaTexts (streamAnswer cfg env q hist topK).1).flatten] := by
  obtain ⟨ds, hcase⟩ := streamAnswer_cases cfg env q hist topK
  rcases hcase with ⟨hev, e, herr⟩ | ⟨s, f, i, hev, _⟩
  · rw [herr] at hok
    exact absurd hok (by simp)
  · rw [hev, finalAnswers_append, deltaTexts_append, finalAnswers_map_delta,
      deltaTexts_map_delta, finalAnswers_final, deltaTexts_final]
    simp

/-- Witness for C4: a stream of two non-empty chunks completing normally. -/
theorem c4_stream_concat_witness :
    (streamAnswer cfgA envStreamOk ['h', 'i'] none none).2.1 = .ok ()
    ∧ finalAnswers (streamAnswer cfgA envStreamOk ['h', 'i'] none none).1 =
        [pyStrip (deltaTexts
          (streamAnswer cfgA envStreamOk ['h', 'i'] none none).1).flatten] :=
  ⟨rfl, c4_stream_concat cfgA envStreamOk ['h', 'i'] none none rfl⟩

/-- C5 counterexample: a streaming chat call that finishes without yielding
any chunk produces a stream consisting of the final event alone — zero
delta events — so the claimed "one or more delta events" shape fails. -/
theorem c5_zero_delta_counterexample :
    appStream cfgA envStreamEmpty ['h', 'i'] none none
        = [Event.final [] [] fallbackFollowups []]
    ∧ ¬ claimedStreamShape [Event.final [] [] fallbackFollowups []] := by
  constructor
  · rfl
  · intro hcl
    rcases hcl with ⟨ds, fin, hne, hds, hfin, heq⟩ | ⟨pre, err, herr, heq⟩
    · have hlen := congrArg List.length heq
      simp at hlen
      exact hne hlen
    · have hlast := congrArg List.getLast? heq
      rw [List.getLast?_concat] at hlast
      simp at hlast
      rw [← hlast] at herr
      simp [isErrorEv] at herr

/-- C5 (amended): every endpoint event stream is zero or more delta events
followed by exactly one terminal event, which is a final event on normal
completion and an error event when an exception escaped; the stream is
never left unterminated. -/
theorem c5_stream_terminal (cfg : Cfg) (env : Env) (q : Str)
    (hist : Option (List Msg)) (topK : Option Nat) :
    ∃ (ds : List Str) (term : Event),
      (isFinal term = true ∨ isErrorEv term = true)
      ∧ appStream cfg env q hist topK = ds.map Event.delta ++ [term] := by
  obtain ⟨ds, hcase⟩ := streamAnswer_cases cfg env q hist topK
  rcases hcase with ⟨hev, e, herr⟩ | ⟨s, f, i, hev, hok⟩
  · refine ⟨ds, .error (lit "assistant_stream_failed"), .inr rfl, ?_⟩
    rw [appStream_eq, herr, hev]
  · refine ⟨ds, .final (pyStrip ds.flatten) s f i, .inl rfl, ?_⟩
    rw [appStream_eq, hok, hev]

end Rag
